import Mathlib

/-!
Formal model of the chapter discovery and incremental-download engine of the
novel-scraping repository (`scrape_novel.py`, `app_version_scrape_novel.py`,
`format_novel_to_pdf.py`).

Strings are modelled as `List Char` (Python `str`), directories as lists of
file names, and a series directory's contents as an association list from
file name to file body.  DOM interaction (Selenium) is the external
collaborator: rendered pages are modelled as records exposing exactly the
queries the code performs on them (selector text, paragraph texts, anchor
href lists, scroll geometry).
-/

set_option autoImplicit false

namespace NovelScraper

/-! ## Character and string primitives -/

/-- Python's `\s` character class, restricted to the ASCII range in which the
scraped titles and file names live. -/
def pyIsSpace (c : Char) : Bool :=
  c = ' ' || c = '\t' || c = '\n' || c = '\r' || c = '\x0b' || c = '\x0c'

/-- Does `p` occur at the head of `s`?  (`re.match` of a literal pattern.) -/
def startsList : List Char → List Char → Bool
  | [], _ => true
  | _ :: _, [] => false
  | p :: ps, c :: cs => p = c && startsList ps cs

/-- Does `p` occur anywhere in `s`?  (Python `p in s` for strings.) -/
def containsSeq (p : List Char) : List Char → Bool
  | [] => startsList p []
  | c :: cs => startsList p (c :: cs) || containsSeq p cs

/-- `str.lower()` (ASCII titles/markers only). -/
def lowerL (s : List Char) : List Char := s.map Char.toLower

/-- `str.strip()`. -/
def stripWS (s : List Char) : List Char :=
  ((s.dropWhile pyIsSpace).reverse.dropWhile pyIsSpace).reverse

/-- `re.sub(r'\s+', ' ', s)`: every maximal whitespace run becomes one space.
The flag records whether we are inside a run whose space was already emitted. -/
def collapseWSAux : Bool → List Char → List Char
  | _, [] => []
  | inRun, c :: cs =>
    if pyIsSpace c then
      if inRun then collapseWSAux true cs else ' ' :: collapseWSAux true cs
    else c :: collapseWSAux false cs

def collapseWS (s : List Char) : List Char := collapseWSAux false s

/-- `s1.endswith s2`, via the reversed lists. -/
def endsList (suf s : List Char) : Bool := startsList suf.reverse s.reverse

/-- Numeric value of a decimal digit character. -/
def digitVal (c : Char) : Nat := c.toNat - 48

/-- Value of a big-endian digit string, as `int()` computes it. -/
def charsVal (ds : List Char) : Nat := ds.foldl (fun a c => 10 * a + digitVal c) 0

/-- Value of a little-endian decimal digit list. -/
def ofLE (L : List Nat) : Nat := L.foldr (fun d a => d + 10 * a) 0

/-- Little-endian decimal digits of `n`, with explicit fuel (`fuel ≥ n`
suffices for the recursion `n ↦ n / 10` to bottom out). -/
def digitsRevAux : Nat → Nat → List Nat
  | 0, _ => []
  | f + 1, n => if n = 0 then [] else n % 10 :: digitsRevAux f (n / 10)

/-- Big-endian decimal digit characters of `n`; `Python str(n)` (with `""`
for 0, patched by `numRepr`). -/
def numChars (n : Nat) : List Char :=
  ((digitsRevAux n n).reverse).map (fun d => Char.ofNat (48 + d))

/-- Python `str(n)` for a non-negative int. -/
def numRepr (n : Nat) : List Char := if n = 0 then ['0'] else numChars n

/-- Python `f-string` `03d` formatting: decimal digits zero-padded to width 3
(wider numbers are kept unpadded). -/
def pad3 (n : Nat) : List Char :=
  List.replicate (3 - (numRepr n).length) '0' ++ numRepr n

/-! ## Chapter Store: `get_latest_chapter` / `save_chapter` (`scrape_novel.py`
lines 482-531; the identical `ApplicationWindow._get_latest_chapter`). -/

/-- The regex `^(\d+)_` applied by `get_latest_chapter` to a base name: the
nonempty leading digit run, provided the character right after it is `_`. -/
def prefixNum (name : List Char) : Option Nat :=
  let ds := name.takeWhile Char.isDigit
  if ds.isEmpty then none
  else if (name.drop ds.length).head? == some '_' then some (charsVal ds)
  else none

/-- `glob.glob(os.path.join(dir, "*.txt"))` membership for a base name: glob
skips names starting with a dot, and on the Windows platform this code targets
(`winsound`) `fnmatch` compares case-insensitively. -/
def globTxt (name : List Char) : Bool :=
  name.head? != some '.' && endsList ".txt".data (lowerL name)

/-- `get_latest_chapter(output_dir)`: `none` models an absent directory.
`max(nums) if nums else 0` is `foldl max 0` on `Nat`. -/
def get_latest_chapter (dir : Option (List (List Char))) : Nat :=
  match dir with
  | none => 0
  | some files =>
    let chapterFiles := files.filter globTxt
    if chapterFiles.isEmpty then 0
    else
      let nums := chapterFiles.filterMap prefixNum
      nums.foldl max 0

/-- Modelled from the spec's words for `latestDownloaded` (§4.3/§8): "scans
filenames matching `^(\d+)_`, returns the max numeric prefix, or 0 if none
exist" — over ALL files, with no `.txt` restriction.  Used to compare the
spec's sentence against the code. -/
def latestDownloaded_spec (dir : Option (List (List Char))) : Nat :=
  match dir with
  | none => 0
  | some files => (files.filterMap prefixNum).foldl max 0

/-- The amended reading: the scan is restricted to the `*.txt` glob. -/
def latestDownloaded_txt_spec (dir : Option (List (List Char))) : Nat :=
  match dir with
  | none => 0
  | some files => ((files.filter globTxt).filterMap prefixNum).foldl max 0

/-- Characters stripped by `save_chapter`'s `re.sub(r'[<>:"/\\|?*#]', '', t)`. -/
def illegalFileChar (c : Char) : Bool :=
  c = '<' || c = '>' || c = ':' || c = '"' || c = '/' || c = '\\' ||
  c = '|' || c = '?' || c = '*' || c = '#'

/-- `save_chapter`'s title sanitisation (`scrape_novel.py` 502-508): strip
illegal characters, collapse whitespace, truncate to 80 chars plus `...`. -/
def sanitizeTitle (t : List Char) : List Char :=
  let s := collapseWS (t.filter (fun c => !illegalFileChar c))
  if s.length > 80 then s.take 80 ++ "...".data else s

/-- `f"{chapter_num:03d}_{safe_title}.txt"`. -/
def primaryName (n : Nat) (title : List Char) : List Char :=
  pad3 n ++ '_' :: (sanitizeTitle title ++ ".txt".data)

/-- The deterministic fallback `f"{chapter_num:03d}_Chapter_{chapter_num}.txt"`. -/
def fallbackName (n : Nat) : List Char :=
  pad3 n ++ '_' :: ("Chapter_".data ++ numRepr n ++ ".txt".data)

/-- A series directory's contents: base name paired with file body, one entry
per name (`writeFile` overwrites an existing name, as the OS does). -/
abbrev Store := List (List Char × List Char)

def writeFile (st : Store) (name body : List Char) : Store :=
  if st.any (fun e => e.1 == name) then
    st.map (fun e => if e.1 == name then (name, body) else e)
  else st ++ [(name, body)]

def dirListing (st : Store) : List (List Char) := st.map Prod.fst

/-- `save_chapter(title, content, chapter_num, output_dir)` (lines 500-531).
The name falls back when the joined path exceeds 240 characters (join adds one
separator).  The `except OSError` retry is a reaction to filesystem failures,
which the embedding does not model, so the write itself always succeeds here;
the returned `Bool` is the function's result. -/
def save_chapter (title content : List Char) (n : Nat) (dirPath : List Char)
    (st : Store) : Bool × Store :=
  let fname :=
    if dirPath.length + 1 + (primaryName n title).length > 240 then fallbackName n
    else primaryName n title
  (true, writeFile st fname (title ++ '\n' :: '\n' :: content))

/-- How many files of the store carry numeric prefix `n`. -/
def countWithNum (n : Nat) (st : Store) : Nat :=
  ((dirListing st).filter (fun f => prefixNum f == some n)).length

/-- The app version's `_sanitize_filename` additionally strips, and its
`_save_chapter` has no 240-character path check (only the `OSError` retry). -/
def sanitizeTitleApp (t : List Char) : List Char :=
  let s := stripWS (collapseWS (t.filter (fun c => !illegalFileChar c)))
  if s.length > 80 then s.take 80 ++ "...".data else s

/-- `NovelBinScraper._save_chapter` (app version, lines 744-767). -/
def save_chapter_app (title content : List Char) (n : Nat) (st : Store) :
    Bool × Store :=
  let fname := pad3 n ++ '_' :: (sanitizeTitleApp title ++ ".txt".data)
  (true, writeFile st fname (title ++ '\n' :: '\n' :: content))

/-! ## Chapter check arithmetic (claim C2)

`ApplicationWindow._check_chapters_thread` (app version, lines 1107-1123) and
the corresponding block of `ask_chapters_to_download` (`scrape_novel.py`
lines 336-357).  Chapter counts are Python ints, so `Int` here. -/

/-- The app's remaining/next computation.  Returns
`(remaining_chapters, next_chapter)`. -/
def check_chapters_calc (minAvailable maxAvailable latestDownloaded : Int) :
    Int × Int :=
  if minAvailable = 0 ∧ latestDownloaded = 0 then (maxAvailable + 1, 0)
  else if minAvailable = 0 then
    (maxAvailable - latestDownloaded, latestDownloaded + 1)
  else (maxAvailable - latestDownloaded, latestDownloaded + 1)

/-- The CLI's computation in `ask_chapters_to_download`.  The guard is
Python's `if min_available and max_available:`, which is FALSE whenever either
value is `None` or `0`; when the guard fails no `remaining_chapters` or
`next_chapter` is computed at all (modelled as `none`). -/
def ask_chapters_calc (minAvailable maxAvailable : Option Int)
    (latestDownloaded : Int) : Option (Int × Int) :=
  match minAvailable, maxAvailable with
  | some mn, some mx =>
    if mn ≠ 0 ∧ mx ≠ 0 then
      (mx - latestDownloaded, latestDownloaded + 1)
    else none
  | _, _ => none

/-! ## NovelBin orchestrator (claim C4)

`scrape_novelbin_multiple` (`scrape_novel.py` lines 985-1034): a `for i in
range(chapters_per_run)` loop with `max_consecutive_failures = 2`, breaking on
`current_chapter > end` and on the failure threshold; the failure counter is
reset to `0` on every success.  `result : Nat → Bool` abstracts
`scrape_novelbin_single_with_fresh_browser` returning 1 (success) or 0. -/

structure NBRunState where
  downloaded : Nat
  current : Nat
  consecFails : Nat
  attempted : List Nat
  halted : Bool
  deriving DecidableEq, Repr

/-- One iteration of the download loop body. -/
def nbStep (result : Nat → Bool) (endCh : Nat) (s : NBRunState) : NBRunState :=
  if s.halted ∨ endCh < s.current then { s with halted := true }
  else if result s.current then
    { downloaded := s.downloaded + 1, current := s.current + 1,
      consecFails := 0, attempted := s.attempted ++ [s.current],
      halted := false }
  else
    -- on reaching the threshold the code breaks before `current_chapter += 1`
    { downloaded := s.downloaded,
      current := if s.consecFails + 1 ≥ 2 then s.current else s.current + 1,
      consecFails := s.consecFails + 1,
      attempted := s.attempted ++ [s.current],
      halted := decide (s.consecFails + 1 ≥ 2) }

def nbRun (result : Nat → Bool) (endCh : Nat) : Nat → NBRunState → NBRunState
  | 0, s => s
  | i + 1, s => nbRun result endCh i (nbStep result endCh s)

/-- `scrape_novelbin_multiple(series_url, chapters_per_run, start, end, dir)`,
reduced to the quantities the claim speaks about: the number of downloaded
chapters and the list of attempted chapter numbers, in order. -/
def scrape_novelbin_multiple (result : Nat → Bool)
    (chaptersPerRun start endCh : Nat) : NBRunState :=
  nbRun result endCh chaptersPerRun
    { downloaded := 0, current := start, consecFails := 0,
      attempted := [], halted := false }

/-! ## NovelBin content extraction (claim C5)

A rendered chapter page, as the extractors query it: CSS-selector lookup,
all `<p>` texts, and the text of the `<main>` landmark (`none` models
`find_element` raising `NoSuchElementException`). -/

structure NBPage where
  title : List Char
  sel : List Char → Option (List Char)
  paragraphs : List (List Char)
  mainText : Option (List Char)

/-- The selector list both extractors probe, in order. -/
def nbContentSelectors : List (List Char) :=
  [".chr-c".data, ".chapter-content".data, ".content".data,
   "#chr-content".data, ".reading-content".data, "article".data,
   ".chapter-body".data, ".chapter-text".data, ".text-left".data,
   "#chapter-content".data, ".entry-content".data, ".post-content".data]

/-- `if not title or "404" in title or "not found" in title.lower()`. -/
def titleInvalid (t : List Char) : Bool :=
  t.isEmpty || containsSeq "404".data t || containsSeq "not found".data (lowerL t)

/-- App version selector loop (`_get_chapter_content` lines 703-711): first
selector whose stripped text exceeds 100 characters wins; shorter hits are
discarded. -/
def probeSelectorsApp (sel : List Char → Option (List Char)) :
    List (List Char) → Option (List Char)
  | [] => none
  | s :: ss =>
    match sel s with
    | some txt =>
      let c := stripWS txt
      if c.length > 100 then some c else probeSelectorsApp sel ss
    | none => probeSelectorsApp sel ss

/-- `"\n\n".join(paragraph_texts)`. -/
def joinBlank (ps : List (List Char)) : List Char :=
  List.intercalate ('\n' :: '\n' :: []) ps

/-- `NovelBinScraper._fallback_content_extraction` (app version, lines
716-742): the paragraph concatenation is returned WITHOUT any total-length
check (only each paragraph individually must exceed 50 chars); only the
`<main>` fallback re-checks the 100-character threshold. -/
def fallback_content_extraction (pg : NBPage) (title : List Char) :
    Option (List Char × List Char) :=
  let ptexts := (pg.paragraphs.map stripWS).filter (fun t => t.length > 50)
  if !ptexts.isEmpty then some (title, joinBlank ptexts)
  else
    match pg.mainText with
    | some m =>
      let c := stripWS m
      if c.length > 100 then some (title, c) else none
    | none => none

/-- `NovelBinScraper._get_chapter_content` (app version, lines 688-714):
`none` models the `(None, None)` invalid result. -/
def get_chapter_content_app (pg : NBPage) : Option (List Char × List Char) :=
  let title := stripWS pg.title
  if titleInvalid title then none
  else
    match probeSelectorsApp pg.sel nbContentSelectors with
    | some c => some (title, c)
    | none => fallback_content_extraction pg title

/-- App `_download_single_chapter` tail: extract, then save only on a valid
extraction (nothing is persisted on `None` content). -/
def nb_download_single_app (pg : NBPage) (n : Nat) (st : Store) : Bool × Store :=
  match get_chapter_content_app pg with
  | none => (false, st)
  | some (t, c) => save_chapter_app t c n st

/-- CLI selector loop (`scrape_novel.py` lines 890-900): `content` keeps the
text of the last selector that was found even when it was too short; a text
over 100 chars breaks the loop. -/
def probeSelectorsCli (sel : List Char → Option (List Char)) :
    List (List Char) → List Char → List Char
  | [], acc => acc
  | s :: ss, acc =>
    match sel s with
    | some txt =>
      let c := stripWS txt
      if c.length > 100 then c else probeSelectorsCli sel ss c
    | none => probeSelectorsCli sel ss acc

/-- The CLI's `content` variable as it stands at the final validation
(lines 902-932): selector probe, then the paragraph fallback (which replaces
`content` only when some paragraph exceeded 50 chars), then the `<main>`
fallback (which replaces `content` whenever the element exists). -/
def cliFinalContent (pg : NBPage) : List Char :=
  let c1 := probeSelectorsCli pg.sel nbContentSelectors []
  let c2 :=
    if c1.isEmpty || c1.length < 100 then
      let ptexts := (pg.paragraphs.map stripWS).filter (fun t => t.length > 50)
      if !ptexts.isEmpty then joinBlank ptexts else c1
    else c1
  if c2.isEmpty || c2.length < 100 then
    match pg.mainText with
    | some m => stripWS m
    | none => c2
  else c2

/-- `scrape_novelbin_single_with_fresh_browser`, from the loaded chapter page
on: title validation, extraction, the final `len(content) < 100` gate
(lines 931-948, returning 0 with nothing saved), then `save_chapter`. -/
def cli_scrape_single (pg : NBPage) (n : Nat) (dirPath : List Char)
    (st : Store) : Nat × Store :=
  let title := stripWS pg.title
  if titleInvalid title then (0, st)
  else
    let content := cliFinalContent pg
    if content.isEmpty || content.length < 100 then (0, st)
    else
      let r := save_chapter title content n dirPath st
      if r.1 then (1, r.2) else (0, r.2)

/-! ## Locked-content classification (claim C7)

`format_novel_to_pdf.py`: `check_locked_content` (lines 173-197) and the
exclusion decision of `create_chapter_pdf` (lines 251-266). -/

def paywallMarker : List Char := "Login to buy access to this content".data

/-- `check_locked_content(content)`: marker containment is checked on
`content.lower().strip()`; then suspiciously short collapsed content
(< 100 chars) and finally "at most 2 nonblank lines" also classify as
locked. -/
def check_locked_content (content : List Char) : Bool :=
  let contentLower := stripWS (lowerL content)
  if containsSeq (lowerL paywallMarker) contentLower then true
  else
    let clean := stripWS (collapseWS content)
    if clean.length < 100 then true
    else
      let lines := ((content.splitOn '\n').map stripWS).filter
        (fun l => !l.isEmpty)
      decide (lines.length ≤ 2)

inductive NovelSource where
  | katreadingcafe
  | novelbin
  | unknown
  deriving DecidableEq, Repr

/-- The exclusion test of `create_chapter_pdf`'s chapter loop:
`if novel_source == "katreadingcafe" and self.check_locked_content(content)`.
A chapter is skipped from the PDF exactly when this returns `true`. -/
def pdfExcludes (src : NovelSource) (content : List Char) : Bool :=
  src == NovelSource.katreadingcafe && check_locked_content content

/-- Modelled from the spec: "excluded ... exactly when its body contains the
known paywall marker string" — marker containment alone (case-insensitive,
as the code compares lowercased text). -/
def pdfExcludes_spec (content : List Char) : Bool :=
  containsSeq (lowerL paywallMarker) (lowerL content)

/-! ## KatReadingCafe nested-volume discovery (claim C3)

`scrape_katreadingcafe` (`scrape_novel.py` lines 541-618) versus the app's
`KatReadingCafeScraper._discover_chapters` / `_expand_volume` (lines
352-407).  A page exposes the volume number named by the "New Chapter"
marker's sibling text, the `Vol.` labels present, and per volume the chapter
links `(chapter number, href)` whose anchor text carries that volume's
`Vol. v Ch. n` label.  The browser state is the set of expanded volumes;
an anchor is visible (returned by `find_elements`) exactly when its volume
is expanded, and a click toggles a volume's expansion. -/

structure KatPage where
  newChapterVol : Option Nat
  volumeLabels : List Nat
  initiallyExpanded : Finset Nat
  chapters : Nat → List (Nat × List Char)

inductive KatAction where
  | scroll (v : Nat)
  | click (v : Nat)
  | scan (v : Nat)
  deriving DecidableEq, Repr

/-- Ascending insertion. -/
def insertSorted (x : Nat) : List Nat → List Nat
  | [] => [x]
  | y :: ys => if x ≤ y then x :: y :: ys else y :: insertSorted x ys

/-- `sorted(list(set(xs)))`: the distinct elements in ascending order. -/
def sortedDedup (xs : List Nat) : List Nat := xs.dedup.foldr insertSorted []

/-- The skip test
`if latest_volume_from_new_chapter and vol_num == latest_volume_from_new_chapter`:
Python truthiness makes `None` — and a parsed volume 0 — fail the guard. -/
def katSkip (latest : Option Nat) (v : Nat) : Bool :=
  match latest with
  | some l => l ≠ 0 && v == l
  | none => false

/-- Clicking a volume header toggles its expansion. -/
def katToggle (v : Nat) (expanded : Finset Nat) : Finset Nat :=
  if v ∈ expanded then expanded.erase v else insert v expanded

/-- The `Vol. v Ch. (\d+)` matches among currently visible anchors: the
anchors of volume `v`, when `v` is expanded (other volumes' anchor texts
carry a different volume literal and never match the `v` pattern). -/
def katVisible (pg : KatPage) (expanded : Finset Nat) (v : Nat) :
    List (Nat × (List Char × Nat)) :=
  if v ∈ expanded then (pg.chapters v).map (fun p => (p.1, (p.2, v))) else []

/-- CLI actions for one volume: the marker-identified latest volume is only
scanned; every other volume is scrolled into view and clicked first. -/
def katBlockCli (latest : Option Nat) (v : Nat) : List KatAction :=
  if katSkip latest v then [KatAction.scan v]
  else [KatAction.scroll v, KatAction.click v, KatAction.scan v]

/-- CLI per-volume collection step, threading the expansion state. -/
def katStepCli (pg : KatPage) (acc : Finset Nat × List (Nat × (List Char × Nat)))
    (v : Nat) : Finset Nat × List (Nat × (List Char × Nat)) :=
  if katSkip pg.newChapterVol v then (acc.1, acc.2 ++ katVisible pg acc.1 v)
  else
    let ex := katToggle v acc.1
    (ex, acc.2 ++ katVisible pg ex v)

/-- `scrape_katreadingcafe`'s discovery phase: iterate the sorted deduplicated
volume list, skipping the click for the latest volume, and collect
`{chapter_num: (url, volume)}` entries (last write wins in the dict; the
entry list keeps every write, which suffices for membership claims). -/
def katDiscoverCli (pg : KatPage) :
    List KatAction × List (Nat × (List Char × Nat)) :=
  let vols := sortedDedup pg.volumeLabels
  (vols.flatMap (katBlockCli pg.newChapterVol),
   (vols.foldl (katStepCli pg) (pg.initiallyExpanded, [])).2)

/-- App `_expand_volume` actions: scroll, click, scan — for EVERY volume;
`_discover_chapters` has no "New Chapter" skip at all. -/
def katBlockApp (v : Nat) : List KatAction :=
  [KatAction.scroll v, KatAction.click v, KatAction.scan v]

def katStepApp (pg : KatPage) (acc : Finset Nat × List (Nat × (List Char × Nat)))
    (v : Nat) : Finset Nat × List (Nat × (List Char × Nat)) :=
  let ex := katToggle v acc.1
  (ex, acc.2 ++ katVisible pg ex v)

/-- `KatReadingCafeScraper._discover_chapters` (app version). -/
def katDiscoverApp (pg : KatPage) :
    List KatAction × List (Nat × (List Char × Nat)) :=
  let vols := sortedDedup pg.volumeLabels
  (vols.flatMap katBlockApp,
   (vols.foldl (katStepApp pg) (pg.initiallyExpanded, [])).2)

/-! ## Infinite-scroll chapter discovery loop (claim C8)

`ApplicationWindow._get_novelbin_chapters_improved`, lines 1462-1530: the
progressive scrolling loop with `max_stable = 4`, an iteration cap of 25,
and a bottom-of-page check which triggers one final re-scan. -/

structure ScrollPage where
  initialLinks : Finset Nat
  linksAt : Nat → Finset Nat
  atBottom : Nat → Bool
  finalLinks : Nat → Finset Nat

inductive ScrollStop where
  | stability
  | bottom
  | cap
  deriving DecidableEq, Repr

structure ScrollResult where
  found : Finset Nat
  scanned : List (Finset Nat)
  iters : Nat
  reason : ScrollStop
  deriving DecidableEq

/-- The scroll loop body: scan, union, update the stability counter, break on
4 stable iterations, else break at the bottom after one final scan.
`scanned` records every link set read by `get_all_chapter_links`. -/
def scrollLoop (pg : ScrollPage) : Nat → Nat → Nat → Finset Nat → ScrollResult
  | 0, idx, _, found => ⟨found, [], idx, ScrollStop.cap⟩
  | fuel + 1, idx, stable, found =>
    let current := pg.linksAt idx
    let found2 := found ∪ current
    let stable2 := if current ⊆ found then stable + 1 else 0
    if stable2 ≥ 4 then ⟨found2, [current], idx + 1, ScrollStop.stability⟩
    else if pg.atBottom idx then
      ⟨found2 ∪ pg.finalLinks idx, [current, pg.finalLinks idx], idx + 1,
        ScrollStop.bottom⟩
    else
      let r := scrollLoop pg fuel (idx + 1) stable2 found2
      { r with scanned := current :: r.scanned }

/-- The discovery scroll phase: initial scan, then at most 25 iterations. -/
def discover_scroll (pg : ScrollPage) : ScrollResult :=
  let r := scrollLoop pg 25 0 0 pg.initialLinks
  { r with scanned := pg.initialLinks :: r.scanned }

/-- Union of a list of scanned link sets. -/
def unionAll (ls : List (Finset Nat)) : Finset Nat := ls.foldl (· ∪ ·) ∅

/-- The three-step fixture of the spec: `{5,6,7}` visible after the first
scroll, `{8,9}` added after the second, nothing new afterwards, bottom never
reached. -/
def scrollFixture : ScrollPage where
  initialLinks := ∅
  linksAt := fun i => if i = 0 then {5, 6, 7} else {5, 6, 7, 8, 9}
  atBottom := fun _ => false
  finalLinks := fun _ => ∅

/-! ## Chapter-number URL extraction (claim C10)

`NovelBinScraper._extract_chapter_number` (app version, lines 672-686) and
the identical pattern loop of `scrape_novelbin_single_with_fresh_browser`
(`scrape_novel.py` lines 785-799). -/

/-- Does `lit` immediately followed by at least one digit occur at the head
of `s`?  If so, return the value of the maximal digit run. -/
def litNumAt (lit s : List Char) : Option Nat :=
  if startsList lit s then
    let ds := (s.drop lit.length).takeWhile Char.isDigit
    if ds.isEmpty then none else some (charsVal ds)
  else none

/-- `re.search` of the pattern `<lit>(\d+)`: the match at the leftmost
position where it succeeds. -/
def searchLitNum (lit : List Char) : List Char → Option Nat
  | [] => litNumAt lit []
  | c :: cs =>
    match litNumAt lit (c :: cs) with
    | some v => some v
    | none => searchLitNum lit cs

/-- The pattern list, in the order the code tries it. -/
def nbPatterns : List (List Char) :=
  ["chapter-".data, "ch-".data, "chapter/".data, "c".data, "chap-".data]

/-- First pattern that matches wins (the loop `break`s on a match). -/
def firstPatternMatch : List (List Char) → List Char → Option Nat
  | [], _ => none
  | p :: ps, href =>
    match searchLitNum p href with
    | some v => some v
    | none => firstPatternMatch ps href

/-- `_extract_chapter_number(href)`. -/
def extract_chapter_number (href : List Char) : Option Nat :=
  firstPatternMatch nbPatterns href

/-! ## Concrete fixture pages -/

/-- A rendered chapter page on which every selector probe fails and the only
content is a single 66-character paragraph — long enough for the paragraph
fallback's per-paragraph 50-char test, but under the 100-char validity
threshold. -/
def nbShortParagraphPage : NBPage where
  title := "Chapter 3 - Some Novel".data
  sel := fun _ => none
  paragraphs :=
    ["The hero paused at the gate and considered the road ahead quietly.".data]
  mainText := none

/-- A rendered chapter page with no usable content at all. -/
def nbEmptyPage : NBPage where
  title := "Chapter 9 - Some Novel".data
  sel := fun _ => none
  paragraphs := []
  mainText := none

/-- The spec's §8 KatReadingCafe fixture: volumes 1 and 2, the "New Chapter"
marker naming volume 2 as latest, volume 2 pre-expanded. -/
def katFixturePage : KatPage where
  newChapterVol := some 2
  volumeLabels := [1, 2]
  initiallyExpanded := {2}
  chapters := fun v =>
    if v = 1 then
      [(1, "u1".data), (2, "u2".data), (3, "u3".data), (4, "u4".data),
       (5, "u5".data)]
    else if v = 2 then [(1, "w1".data), (2, "w2".data), (3, "w3".data)]
    else []

/-! ## Decimal digit strings: `int()` inverts `f"{n:03d}"` -/

theorem digitsRevAux_lt_ten :
    ∀ (fuel n : Nat), ∀ d ∈ digitsRevAux fuel n, d < 10 := by
  intro fuel
  induction fuel with
  | zero =>
    intro n d hd
    rw [show digitsRevAux 0 n = [] from rfl] at hd
    exact absurd hd (List.not_mem_nil d)
  | succ f ih =>
    intro n d hd
    by_cases h : n = 0
    · simp [digitsRevAux, h] at hd
    · simp only [digitsRevAux, if_neg h, List.mem_cons] at hd
      rcases hd with h1 | h2
      · omega
      · exact ih _ _ h2

theorem ofLE_digitsRevAux :
    ∀ (fuel n : Nat), n ≤ fuel → ofLE (digitsRevAux fuel n) = n := by
  intro fuel
  induction fuel with
  | zero => intro n h; interval_cases n; rfl
  | succ f ih =>
    intro n h
    by_cases h0 : n = 0
    · simp [digitsRevAux, h0, ofLE]
    · have hdiv : n / 10 ≤ f := by omega
      simp only [digitsRevAux, if_neg h0, ofLE, List.foldr_cons]
      have := ih (n / 10) hdiv
      simp only [ofLE] at this
      rw [this]
      omega

theorem digitVal_chr {d : Nat} (h : d < 10) :
    digitVal (Char.ofNat (48 + d)) = d := by
  interval_cases d <;> rfl

theorem isDigit_chr {d : Nat} (h : d < 10) :
    (Char.ofNat (48 + d)).isDigit = true := by
  interval_cases d <;> rfl

theorem foldl_horner :
    ∀ (L : List Nat) (a : Nat),
      L.reverse.foldl (fun x d => 10 * x + d) a = a * 10 ^ L.length + ofLE L := by
  intro L
  induction L with
  | nil => intro a; simp [ofLE]
  | cons d T ih =>
    intro a
    simp only [List.reverse_cons, List.foldl_append, List.foldl_cons,
      List.foldl_nil, ih a, ofLE, List.foldr_cons, List.length_cons]
    have : (10 : Nat) ^ (T.length + 1) = 10 ^ T.length * 10 := by ring
    rw [this]
    ring

theorem charsVal_numRepr (n : Nat) : charsVal (numRepr n) = n := by
  by_cases h0 : n = 0
  · subst h0; rfl
  · have hlt := digitsRevAux_lt_ten n n
    simp only [numRepr, if_neg h0, numChars, charsVal, List.foldl_map]
    have hcong :
        (digitsRevAux n n).reverse.foldl
            (fun x d => 10 * x + digitVal (Char.ofNat (48 + d))) 0
          = (digitsRevAux n n).reverse.foldl (fun x d => 10 * x + d) 0 := by
      apply List.foldl_ext
      intro a d hd
      rw [digitVal_chr (hlt d (List.mem_reverse.mp hd))]
    rw [hcong, foldl_horner, ofLE_digitsRevAux n n le_rfl]
    ring

theorem foldl_val_replicate_zero :
    ∀ (k : Nat), (List.replicate k '0').foldl (fun a c => 10 * a + digitVal c) 0 = 0 := by
  intro k
  induction k with
  | zero => rfl
  | succ m ih => simpa [List.replicate_succ, digitVal] using ih

theorem charsVal_pad3 (n : Nat) : charsVal (pad3 n) = n := by
  simp only [pad3, charsVal, List.foldl_append, foldl_val_replicate_zero]
  exact charsVal_numRepr n

theorem numRepr_ne_nil (n : Nat) : numRepr n ≠ [] := by
  by_cases h0 : n = 0
  · simp [numRepr, h0]
  · simp only [numRepr, if_neg h0, numChars]
    intro hcontra
    have h1 : digitsRevAux n n = [] := by
      simpa using congrArg List.length hcontra
    obtain ⟨f, hf⟩ : ∃ f, n = f + 1 := ⟨n - 1, by omega⟩
    rw [hf] at h1
    simp only [digitsRevAux] at h1
    rw [if_neg (by omega)] at h1
    exact List.cons_ne_nil _ _ h1

theorem pad3_ne_nil (n : Nat) : pad3 n ≠ [] := by
  simp [pad3, numRepr_ne_nil n]

theorem mem_numRepr_isDigit (n : Nat) : ∀ c ∈ numRepr n, c.isDigit = true := by
  by_cases h0 : n = 0
  · subst h0; intro c hc; simp [numRepr] at hc; subst hc; rfl
  · intro c hc
    simp only [numRepr, if_neg h0, numChars, List.mem_map] at hc
    obtain ⟨d, hd, rfl⟩ := hc
    exact isDigit_chr (digitsRevAux_lt_ten n n d (List.mem_reverse.mp hd))

theorem mem_pad3_isDigit (n : Nat) : ∀ c ∈ pad3 n, c.isDigit = true := by
  intro c hc
  simp only [pad3, List.mem_append, List.mem_replicate] at hc
  rcases hc with ⟨_, rfl⟩ | h
  · rfl
  · exact mem_numRepr_isDigit n c h

/-! ## List scanning helpers -/

theorem takeWhile_all_append_cons {p : Char → Bool} :
    ∀ (l1 : List Char) (d : Char) (l2 : List Char),
      (∀ c ∈ l1, p c = true) → p d = false →
      (l1 ++ d :: l2).takeWhile p = l1 := by
  intro l1
  induction l1 with
  | nil => intro d l2 _ hd; simp [List.takeWhile, hd]
  | cons c cs ih =>
    intro d l2 hall hd
    have hc : p c = true := hall c (by simp)
    simp only [List.cons_append, List.takeWhile_cons, hc, if_true]
    rw [ih d l2 (fun x hx => hall x (by simp [hx])) hd]

theorem startsList_self_append :
    ∀ (p r : List Char), startsList p (p ++ r) = true := by
  intro p
  induction p with
  | nil => intro r; rfl
  | cons c cs ih => intro r; simp [startsList, ih r]

theorem endsList_append_self (x suf : List Char) :
    endsList suf (x ++ suf) = true := by
  simp only [endsList, List.reverse_append]
  exact startsList_self_append _ _

theorem base_le_foldl_max :
    ∀ (l : List Nat) (a : Nat), a ≤ l.foldl max a := by
  intro l
  induction l with
  | nil => intro a; simp
  | cons x xs ih =>
    intro a
    calc a ≤ max a x := le_max_left a x
    _ ≤ xs.foldl max (max a x) := ih (max a x)

theorem le_foldl_max :
    ∀ (l : List Nat) (a m : Nat), m ∈ l → m ≤ l.foldl max a := by
  intro l
  induction l with
  | nil => intro a m hm; simp at hm
  | cons x xs ih =>
    intro a m hm
    rcases List.mem_cons.mp hm with rfl | h
    · calc m ≤ max a m := le_max_right a m
      _ ≤ xs.foldl max (max a m) := base_le_foldl_max xs (max a m)
    · exact ih (max a x) m h

theorem foldl_max_eq_or_mem :
    ∀ (l : List Nat) (a : Nat), l.foldl max a = a ∨ l.foldl max a ∈ l := by
  intro l
  induction l with
  | nil => intro a; left; rfl
  | cons x xs ih =>
    intro a
    rcases ih (max a x) with h | h
    · rcases max_choice a x with hax | hax
      · left; rw [List.foldl_cons, h, hax]
      · right; rw [List.foldl_cons, h, hax]; exact List.mem_cons_self x xs
    · right; exact List.mem_cons_of_mem x h

theorem foldl_max_zero_mem (l : List Nat) (h : l ≠ []) : l.foldl max 0 ∈ l := by
  rcases foldl_max_eq_or_mem l 0 with h0 | hm
  · obtain ⟨x, xs, rfl⟩ := List.exists_cons_of_ne_nil h
    have hx : x ≤ (x :: xs).foldl max 0 := le_foldl_max _ 0 x (by simp)
    rw [h0] at hx
    have : x = 0 := Nat.le_zero.mp hx
    rw [h0, ← this]
    simp
  · exact hm

/-! ## Saved file names re-parse to their chapter number -/

theorem prefixNum_pad_append (n : Nat) (rest : List Char) :
    prefixNum (pad3 n ++ '_' :: rest) = some n := by
  have htake : (pad3 n ++ '_' :: rest).takeWhile Char.isDigit = pad3 n :=
    takeWhile_all_append_cons (pad3 n) '_' rest (mem_pad3_isDigit n) rfl
  have hempty : (pad3 n).isEmpty = false := by
    rcases h : (pad3 n).isEmpty with _ | _
    · rfl
    · exact absurd (List.isEmpty_iff.mp h) (pad3_ne_nil n)
  unfold prefixNum
  simp only [htake, hempty, Bool.false_eq_true, if_false, List.drop_left,
    List.head?_cons]
  simp [charsVal_pad3 n]

theorem globTxt_saved (n : Nat) (mid : List Char) :
    globTxt (pad3 n ++ '_' :: (mid ++ ".txt".data)) = true := by
  unfold globTxt
  rw [Bool.and_eq_true]
  obtain ⟨c, cs, hc⟩ := List.exists_cons_of_ne_nil (pad3_ne_nil n)
  constructor
  · have hdig : c.isDigit = true := mem_pad3_isDigit n c (by rw [hc]; simp)
    have hne : c ≠ '.' := by
      intro h; rw [h] at hdig; exact absurd hdig (by decide)
    rw [hc]
    simpa using hne
  · have hshape : pad3 n ++ '_' :: (mid ++ ".txt".data)
        = (pad3 n ++ '_' :: mid) ++ ".txt".data := by
      simp [List.append_assoc]
    rw [hshape]
    unfold lowerL
    rw [List.map_append]
    have : List.map Char.toLower ".txt".data = ".txt".data := by decide
    rw [this]
    exact endsList_append_self _ _

theorem latest_single_saved (n : Nat) (mid : List Char) :
    get_latest_chapter (some [pad3 n ++ '_' :: (mid ++ ".txt".data)]) = n := by
  unfold get_latest_chapter
  simp only [List.filter_cons, globTxt_saved n mid, if_true, List.filter_nil,
    List.isEmpty_cons, Bool.false_eq_true, if_false, List.filterMap_cons,
    prefixNum_pad_append n (mid ++ ".txt".data), List.filterMap_nil,
    List.foldl_cons, List.foldl_nil]
  omega

/-! ## Claim theorems: the Chapter Store (C1, C6, C9) -/

/-- Claim C1, counterexample: re-invoking `save` with the same chapter number
1 and a different title does NOT use the fallback name — it creates a second
`001_<title>.txt` file, so two archived files for chapter 1 coexist. -/
theorem claim_C1_counterexample :
    countWithNum 1 ((save_chapter "B".data "body two".data 1 "chapters".data
        ((save_chapter "A".data "body one".data 1 "chapters".data []).2)).2) = 2 ∧
    dirListing ((save_chapter "B".data "body two".data 1 "chapters".data
        ((save_chapter "A".data "body one".data 1 "chapters".data []).2)).2)
      = ["001_A.txt".data, "001_B.txt".data] := by decide

/-- Claim C1, amended: saving chapter `n` twice (short paths, so the primary
name is used) leaves exactly one file with numeric prefix `n` when the two
titles sanitise to the same name (the write overwrites), and exactly two
files when they differ — the fallback name `NNN_Chapter_NNN.txt` plays no
role in title collisions (it is reserved for over-long paths and `OSError`). -/
theorem claim_C1 (n : Nat) (t1 t2 c1 c2 dirPath : List Char)
    (h1 : dirPath.length + 1 + (primaryName n t1).length ≤ 240)
    (h2 : dirPath.length + 1 + (primaryName n t2).length ≤ 240) :
    countWithNum n ((save_chapter t2 c2 n dirPath
        ((save_chapter t1 c1 n dirPath []).2)).2)
      = if sanitizeTitle t1 = sanitizeTitle t2 then 1 else 2 := by
  have hpfx1 : prefixNum (primaryName n t1) = some n := prefixNum_pad_append n _
  have hpfx2 : prefixNum (primaryName n t2) = some n := prefixNum_pad_append n _
  simp only [save_chapter]
  rw [if_neg (by omega), if_neg (by omega)]
  by_cases heq : sanitizeTitle t1 = sanitizeTitle t2
  · have hp : primaryName n t1 = primaryName n t2 := by
      unfold primaryName; rw [heq]
    rw [if_pos heq, hp]
    simp [writeFile, dirListing, countWithNum, hpfx2]
  · have hp : primaryName n t1 ≠ primaryName n t2 := by
      intro h
      unfold primaryName at h
      have h1' : '_' :: (sanitizeTitle t1 ++ ".txt".data)
          = '_' :: (sanitizeTitle t2 ++ ".txt".data) :=
        (List.append_right_inj _).mp h
      have h2' : sanitizeTitle t1 ++ ".txt".data
          = sanitizeTitle t2 ++ ".txt".data := by
        injection h1'
      exact heq ((List.append_left_inj _).mp h2')
    rw [if_neg heq]
    have hbeq : (primaryName n t1 == primaryName n t2) = false := by
      simpa using hp
    simp [writeFile, dirListing, countWithNum, hpfx1, hpfx2, hbeq]

/-- Claim C1, witness: at chapter 1 with titles "A" then "B" the amended
theorem applies and yields two files. -/
theorem claim_C1_witness :
    countWithNum 1 ((save_chapter "B".data "y".data 1 "chapters".data
        ((save_chapter "A".data "x".data 1 "chapters".data []).2)).2)
      = if sanitizeTitle "A".data = sanitizeTitle "B".data then 1 else 2 :=
  claim_C1 1 "A".data "B".data "x".data "y".data "chapters".data
    (by decide) (by decide)

/-- Claim C6, counterexample: a file `005_foo.md` matches `^(\d+)_` but is
not a `*.txt` glob hit, so the code returns 0 where the claim's "maximum
integer prefix over all files matching `^(\d+)_`" is 5. -/
theorem claim_C6_counterexample :
    get_latest_chapter (some ["005_foo.md".data]) = 0 ∧
    latestDownloaded_spec (some ["005_foo.md".data]) = 5 := by decide

/-- Claim C6, amended: over every state of a series directory,
`get_latest_chapter` equals the maximum integer prefix over the `*.txt` files
matching `^(\d+)_` (0 when the directory is absent, empty, or has no matching
`.txt` file); it is total, and the returned value really is the maximum: an
upper bound of all matching prefixes that is itself attained when any
matching `.txt` file exists. -/
theorem claim_C6 :
    (∀ dir, get_latest_chapter dir = latestDownloaded_txt_spec dir) ∧
    get_latest_chapter none = 0 ∧
    (∀ files m, m ∈ (files.filter globTxt).filterMap prefixNum →
        m ≤ get_latest_chapter (some files)) ∧
    (∀ files, (files.filter globTxt).filterMap prefixNum ≠ [] →
        get_latest_chapter (some files) ∈
          (files.filter globTxt).filterMap prefixNum) := by
  have hcode : ∀ files, get_latest_chapter (some files)
      = ((files.filter globTxt).filterMap prefixNum).foldl max 0 := by
    intro files
    simp only [get_latest_chapter]
    rcases h : (files.filter globTxt).isEmpty with _ | _
    · simp [h]
    · have hnil : files.filter globTxt = [] := List.isEmpty_iff.mp h
      simp [hnil]
  refine ⟨?_, rfl, ?_, ?_⟩
  · intro dir
    match dir with
    | none => rfl
    | some files => rw [hcode files]; rfl
  · intro files m hm
    rw [hcode files]
    exact le_foldl_max _ 0 m hm
  · intro files hne
    rw [hcode files]
    exact foldl_max_zero_mem _ hne

/-- Claim C6, witness: on a directory holding `005_x.txt`, `017_y.txt`,
`nonsense.txt` and `003_z.md`, the amended theorem's bounds apply. -/
theorem claim_C6_witness :
    5 ≤ get_latest_chapter (some ["005_x.txt".data, "017_y.txt".data,
        "nonsense.txt".data, "003_z.md".data]) ∧
    get_latest_chapter (some ["005_x.txt".data, "017_y.txt".data,
        "nonsense.txt".data, "003_z.md".data]) ∈
      ((["005_x.txt".data, "017_y.txt".data, "nonsense.txt".data,
        "003_z.md".data].filter globTxt).filterMap prefixNum) :=
  ⟨claim_C6.2.2.1 _ 5 (by decide), claim_C6.2.2.2 _ (by decide)⟩

/-- Claim C9: saving any chapter `n` (any title, any directory path — both
the primary and the long-path fallback name) into an empty series directory
and then reading `latestDownloaded` gives back exactly `n`, including `n = 0`
and `n ≥ 1000`: the zero-padded prefix written by `save` always re-parses to
the same chapter number. -/
theorem claim_C9 (n : Nat) (title content dirPath : List Char) :
    get_latest_chapter
      (some (dirListing ((save_chapter title content n dirPath []).2))) = n := by
  have hw : ∀ fname body : List Char,
      dirListing (writeFile [] fname body) = [fname] := by
    intro fname body; simp [writeFile, dirListing]
  simp only [save_chapter]
  by_cases hlen : dirPath.length + 1 + (primaryName n title).length > 240
  · rw [if_pos hlen, hw]
    have hshape : fallbackName n
        = pad3 n ++ '_' :: (("Chapter_".data ++ numRepr n) ++ ".txt".data) := by
      unfold fallbackName
      simp [List.append_assoc]
    rw [hshape]
    exact latest_single_saved n _
  · rw [if_neg hlen, hw]
    exact latest_single_saved n _

/-! ## Claim theorems: chapter-check arithmetic (C2) -/

/-- Claim C2, counterexample: for a series with remote minimum 0,
maximum 5 and an empty local archive, the CLI's `ask_chapters_to_download`
computes NO `remainingChapters`/`nextChapter` at all — its guard
`if min_available and max_available:` is falsy for `min_available == 0` —
so "the chapter-check computation yields `remainingChapters = maxAvailable+1`
and `nextChapter = 0`" fails there (it would have to yield `some (6, 0)`). -/
theorem claim_C2_counterexample :
    ask_chapters_calc (some 0) (some 5) 0 = none ∧
    ask_chapters_calc (some 0) (some 5) 0 ≠ some (6, 0) ∧
    check_chapters_calc 0 5 0 = (6, 0) := by decide

/-- Claim C2, amended: the GUI chapter check
(`ApplicationWindow._check_chapters_thread`) does yield
`remainingChapters = maxAvailable + 1` and `nextChapter = 0` whenever the
remote minimum is 0 and `latestDownloaded = 0`; the CLI's
`ask_chapters_to_download` skips the whole computation in that case (Python
truthiness of `min_available == 0`) and yields nothing. -/
theorem claim_C2 (minA maxA latest : Int) (hmin : minA = 0)
    (hlatest : latest = 0) :
    check_chapters_calc minA maxA latest = (maxA + 1, 0) ∧
    ask_chapters_calc (some minA) (some maxA) latest = none := by
  subst hmin
  subst hlatest
  constructor
  · simp [check_chapters_calc]
  · simp [ask_chapters_calc]

/-- Claim C2, witness: min 0, max 5, nothing downloaded. -/
theorem claim_C2_witness :
    check_chapters_calc 0 5 0 = (5 + 1, 0) ∧
    ask_chapters_calc (some 0) (some 5) 0 = none :=
  claim_C2 0 5 0 rfl rfl

/-! ## Claim theorems: orchestrator early stop (C4) -/

/-- Claim C4: running `scrape_novelbin_multiple` (threshold hard-coded to 2)
over the requested range 1..5 with chapters 1,2 succeeding and 3,4 failing
attempts exactly chapters 1,2,3,4 — never chapter 5 — and reports
`downloaded = 2` of the 5 requested; moreover a successful download always
resets the consecutive-failure counter to zero. -/
theorem claim_C4 :
    (scrape_novelbin_multiple (fun c => c == 1 || c == 2) 5 1 5).downloaded = 2 ∧
    (scrape_novelbin_multiple (fun c => c == 1 || c == 2) 5 1 5).attempted
      = [1, 2, 3, 4] ∧
    5 ∉ (scrape_novelbin_multiple (fun c => c == 1 || c == 2) 5 1 5).attempted ∧
    (∀ (result : Nat → Bool) (endCh : Nat) (s : NBRunState),
        s.halted = false → s.current ≤ endCh → result s.current = true →
        (nbStep result endCh s).consecFails = 0) := by
  refine ⟨by decide, by decide, by decide, ?_⟩
  intro result endCh s hh hc hr
  simp [nbStep, hh, hr, Nat.not_lt.mpr hc]

/-- Claim C4, witness: the counter-reset conjunct applied to a concrete
mid-run state with one accumulated failure. -/
theorem claim_C4_witness :
    (nbStep (fun c => c == 1 || c == 2) 5
        { downloaded := 0, current := 2, consecFails := 1, attempted := [1],
          halted := false }).consecFails = 0 :=
  claim_C4.2.2.2 (fun c => c == 1 || c == 2) 5 _ rfl (by decide) (by decide)

/-! ## Claim theorems: URL chapter-number extraction (C10) -/

/-- Claim C10: the extractor tries its patterns in order with first-match
wins — an href matching both `chapter-(\d+)` and `c(\d+)` yields the
`chapter-` capture — and because `c(\d+)` matches any `c` followed by digits,
an href with no chapter token at all (no "chapter", "ch-" or "chap"
substring), such as one containing `abc123`, still extracts `some 123`
rather than `none`. -/
theorem claim_C10 :
    extract_chapter_number "https://example.com/abc123".data = some 123 ∧
    containsSeq "chapter".data "https://example.com/abc123".data = false ∧
    containsSeq "ch-".data "https://example.com/abc123".data = false ∧
    containsSeq "chap".data "https://example.com/abc123".data = false ∧
    extract_chapter_number "https://novelbin.me/novel/x/chapter-7-c9".data
      = some 7 := by decide

/-! ## Claim theorems: extraction validity threshold (C5) -/

/-- Claim C5, counterexample: on a page whose selectors all fail and whose
only paragraph is 66 characters long, the app extractor
(`_get_chapter_content` → `_fallback_content_extraction`) returns a VALID
result with a 66-character body — under the 100-character threshold — and the
download step persists a file, instead of returning invalid and persisting
nothing. -/
theorem claim_C5_counterexample :
    (get_chapter_content_app nbShortParagraphPage).map (fun r => r.2.length)
      = some 66 ∧
    (nb_download_single_app nbShortParagraphPage 3 []).1 = true ∧
    ((nb_download_single_app nbShortParagraphPage 3 []).2).length = 1 := by
  decide

/-- Claim C5, amended: the CLI extractor
(`scrape_novelbin_single_with_fresh_browser`) enforces the claim — whenever
the final extracted body (after the selector probes and both fallbacks) is
under 100 characters, the run returns 0 and the chapter store is untouched —
and a failed chapter attempt increments the orchestrator's
consecutive-failure counter.  The app extractor's paragraph fallback,
however, returns bodies of 51-100 characters as valid (see the
counterexample). -/
theorem claim_C5 (pg : NBPage) (n : Nat) (dirPath : List Char) (st : Store)
    (hshort : (cliFinalContent pg).length < 100) :
    cli_scrape_single pg n dirPath st = (0, st) ∧
    (∀ (result : Nat → Bool) (endCh : Nat) (s : NBRunState),
        s.halted = false → s.current ≤ endCh → result s.current = false →
        (nbStep result endCh s).consecFails = s.consecFails + 1) := by
  constructor
  · unfold cli_scrape_single
    by_cases ht : titleInvalid (stripWS pg.title) = true
    · rw [if_pos ht]
    · rw [if_neg ht, if_pos]
      simp [hshort]
  · intro result endCh s hh hc hr
    simp [nbStep, hh, hr, Nat.not_lt.mpr hc]

/-- Claim C5, witness: a page with no content at all yields an empty final
body, the CLI run reports 0 and leaves the store empty. -/
theorem claim_C5_witness :
    cli_scrape_single nbEmptyPage 9 "chapters".data [] = (0, []) :=
  (claim_C5 nbEmptyPage 9 "chapters".data [] (by decide)).1

/-! ## Substring containment under `strip()` -/

theorem bool_eq_of_iff {a b : Bool} (h : a = true ↔ b = true) : a = b := by
  cases a <;> cases b <;> simp_all

theorem startsList_iff (p : List Char) :
    ∀ s, startsList p s = true ↔ ∃ t, s = p ++ t := by
  induction p with
  | nil =>
    intro s
    simp only [startsList, List.nil_append]
    exact ⟨fun _ => ⟨s, rfl⟩, fun _ => trivial⟩
  | cons q qs ih =>
    intro s
    match s with
    | [] =>
      simp only [startsList, List.cons_append]
      constructor
      · intro h; cases h
      · rintro ⟨t, ht⟩; cases ht
    | c :: cs =>
      simp only [startsList, Bool.and_eq_true, decide_eq_true_eq,
        List.cons_append]
      constructor
      · rintro ⟨rfl, h2⟩
        obtain ⟨t, rfl⟩ := (ih cs).mp h2
        exact ⟨t, rfl⟩
      · rintro ⟨t, ht⟩
        injection ht with h1 h2
        exact ⟨h1.symm, (ih cs).mpr ⟨t, h2⟩⟩

theorem containsSeq_iff (p : List Char) :
    ∀ s, containsSeq p s = true ↔ ∃ u t, s = u ++ p ++ t := by
  intro s
  induction s with
  | nil =>
    simp only [containsSeq]
    rw [startsList_iff]
    constructor
    · rintro ⟨t, ht⟩; exact ⟨[], t, by simpa using ht⟩
    · rintro ⟨u, t, h⟩
      obtain ⟨h1, h2⟩ := List.append_eq_nil.mp h.symm
      obtain ⟨h3, h4⟩ := List.append_eq_nil.mp h1
      exact ⟨[], by simp [h4]⟩
  | cons c cs ih =>
    simp only [containsSeq, Bool.or_eq_true]
    rw [startsList_iff, ih]
    constructor
    · rintro (⟨t, ht⟩ | ⟨u, t, ht⟩)
      · exact ⟨[], t, by simpa using ht⟩
      · exact ⟨c :: u, t, by simp [ht]⟩
    · rintro ⟨u, t, h⟩
      match u with
      | [] => exact Or.inl ⟨t, by simpa using h⟩
      | c' :: u' =>
        right
        have h' : c :: cs = c' :: (u' ++ p ++ t) := by simpa using h
        injection h' with h1 h2
        exact ⟨u', t, h2⟩

theorem containsSeq_reverse (p s : List Char) :
    containsSeq p.reverse s.reverse = containsSeq p s := by
  apply bool_eq_of_iff
  rw [containsSeq_iff, containsSeq_iff]
  constructor
  · rintro ⟨u, t, h⟩
    refine ⟨t.reverse, u.reverse, ?_⟩
    have h2 := congrArg List.reverse h
    simpa [List.reverse_append, List.append_assoc] using h2
  · rintro ⟨u, t, h⟩
    refine ⟨t.reverse, u.reverse, ?_⟩
    have h2 := congrArg List.reverse h
    simpa [List.reverse_append, List.append_assoc] using h2

theorem containsSeq_dropWhile_front (q : Char) (qs : List Char)
    (hq : pyIsSpace q = false) :
    ∀ s, containsSeq (q :: qs) (s.dropWhile pyIsSpace)
      = containsSeq (q :: qs) s := by
  intro s
  induction s with
  | nil => rfl
  | cons c cs ih =>
    by_cases hc : pyIsSpace c = true
    · have hqc : decide (q = c) = false := by
        have : q ≠ c := by intro h; rw [h, hc] at hq; cases hq
        simpa using this
      have hstart : startsList (q :: qs) (c :: cs) = false := by
        simp [startsList, hqc]
      simp only [List.dropWhile_cons, hc, if_true, ih, containsSeq, hstart,
        Bool.false_or]
    · have hc' : pyIsSpace c = false := by simpa using hc
      simp [List.dropWhile_cons, hc']

theorem containsSeq_stripWS (p : List Char)
    (hhead : ∃ q qs, p = q :: qs ∧ pyIsSpace q = false)
    (hlast : ∃ r rs, p.reverse = r :: rs ∧ pyIsSpace r = false) :
    ∀ s, containsSeq p (stripWS s) = containsSeq p s := by
  obtain ⟨q, qs, rfl, hq⟩ := hhead
  obtain ⟨r, rs, hrev, hr⟩ := hlast
  intro s
  unfold stripWS
  rw [← containsSeq_reverse (q :: qs)
    (((s.dropWhile pyIsSpace).reverse.dropWhile pyIsSpace).reverse)]
  rw [List.reverse_reverse, hrev]
  rw [containsSeq_dropWhile_front r rs hr]
  rw [← hrev, containsSeq_reverse]
  exact containsSeq_dropWhile_front q qs hq s

/-! ## Claim theorems: paywall marker and PDF exclusion (C7) -/

theorem dirListing_writeFile (st : Store) (f b : List Char) :
    dirListing (writeFile st f b)
      = if st.any (fun e => e.1 == f) then dirListing st
        else dirListing st ++ [f] := by
  unfold writeFile dirListing
  by_cases h : st.any (fun e => e.1 == f) = true
  · rw [if_pos h, if_pos h, List.map_map]
    apply List.map_congr_left
    intro e _
    by_cases hef : (e.1 == f) = true
    · simp only [Function.comp_apply, hef, if_true]
      exact (eq_of_beq hef).symm
    · have hef' : ¬ e.1 = f := by simpa using hef
      simp [Function.comp_apply, hef']
  · rw [if_neg h, if_neg h, List.map_append]
    rfl

/-- Claim C7, counterexample: `check_locked_content` does NOT classify
"exactly when the body contains the paywall marker": a marker-free chapter
consisting of a title line plus one long body line (2 nonblank lines) is
classified locked and excluded, while a chapter containing the marker in a
novel not detected as KatReadingCafe is not excluded at all. -/
theorem claim_C7_counterexample :
    check_locked_content ("Chapter 5".data ++ '\n' ::
        ("The caravan crossed the dunes for three days while the twins " ++
         "argued about maps, water, and the stars overhead.").data) = true ∧
    pdfExcludes_spec ("Chapter 5".data ++ '\n' ::
        ("The caravan crossed the dunes for three days while the twins " ++
         "argued about maps, water, and the stars overhead.").data) = false ∧
    pdfExcludes NovelSource.katreadingcafe ("Chapter 5".data ++ '\n' ::
        ("The caravan crossed the dunes for three days while the twins " ++
         "argued about maps, water, and the stars overhead.").data) = true ∧
    pdfExcludes NovelSource.novelbin ("x".data ++ paywallMarker) = false ∧
    pdfExcludes_spec ("x".data ++ paywallMarker) = true := by decide

/-- Claim C7, amended: saving is never blocked by any content check —
`save_chapter` succeeds and chooses the same file name whatever the body
contains — and at PDF-assembly time a chapter is excluded iff the novel was
detected as KatReadingCafe AND its body either contains the paywall marker
(case-insensitively), or collapses to under 100 characters, or has at most
two nonblank lines. -/
theorem claim_C7 :
    (∀ (title c1 c2 : List Char) (n : Nat) (dirPath : List Char) (st : Store),
        (save_chapter title c1 n dirPath st).1 = true ∧
        dirListing (save_chapter title c1 n dirPath st).2
          = dirListing (save_chapter title c2 n dirPath st).2) ∧
    (∀ (src : NovelSource) (content : List Char),
        pdfExcludes src content = true ↔
          src = NovelSource.katreadingcafe ∧
            (pdfExcludes_spec content = true ∨
             (stripWS (collapseWS content)).length < 100 ∨
             (((content.splitOn '\n').map stripWS).filter
                 (fun l => !l.isEmpty)).length ≤ 2)) := by
  have hm : ∀ s, containsSeq (lowerL paywallMarker) (stripWS s)
      = containsSeq (lowerL paywallMarker) s :=
    containsSeq_stripWS (lowerL paywallMarker)
      ⟨'l', "ogin to buy access to this content".data, by decide, by decide⟩
      ⟨'t', "netnoc siht ot ssecca yub ot nigol".data, by decide, by decide⟩
  constructor
  · intro title c1 c2 n dirPath st
    refine ⟨rfl, ?_⟩
    simp only [save_chapter]
    rw [dirListing_writeFile, dirListing_writeFile]
  · intro src content
    have hlock : check_locked_content content = true ↔
        (pdfExcludes_spec content = true ∨
         (stripWS (collapseWS content)).length < 100 ∨
         (((content.splitOn '\n').map stripWS).filter
             (fun l => !l.isEmpty)).length ≤ 2) := by
      simp only [check_locked_content, pdfExcludes_spec]
      rw [hm (lowerL content)]
      by_cases h1 : containsSeq (lowerL paywallMarker) (lowerL content) = true
      · simp [h1]
      · by_cases h2 : (stripWS (collapseWS content)).length < 100
        · simp [h1, h2]
        · simp [h1, h2]
    unfold pdfExcludes
    rw [Bool.and_eq_true, beq_iff_eq, hlock]

/-- Claim C7, witness: the exclusion equivalence applied at the marker
itself, for a KatReadingCafe novel. -/
theorem claim_C7_witness :
    pdfExcludes NovelSource.katreadingcafe paywallMarker = true :=
  (claim_C7.2 NovelSource.katreadingcafe paywallMarker).mpr
    ⟨rfl, Or.inl (by decide)⟩

/-! ## Claim theorems: KatReadingCafe latest-volume handling (C3) -/

theorem mem_insertSorted (x a : Nat) :
    ∀ l, a ∈ insertSorted x l ↔ a = x ∨ a ∈ l := by
  intro l
  induction l with
  | nil => simp [insertSorted]
  | cons y ys ih =>
    unfold insertSorted
    by_cases h : x ≤ y
    · rw [if_pos h]; simp
    · rw [if_neg h]
      simp only [List.mem_cons, ih]
      tauto

theorem mem_sortedDedup (a : Nat) (xs : List Nat) :
    a ∈ sortedDedup xs ↔ a ∈ xs := by
  unfold sortedDedup
  rw [show (a ∈ xs ↔ a ∈ xs.dedup) from (List.mem_dedup).symm]
  generalize xs.dedup = l
  induction l with
  | nil => simp
  | cons y ys ih =>
    simp only [List.foldr_cons, mem_insertSorted, ih, List.mem_cons]

theorem katSkip_self (L : Nat) (hL : L ≠ 0) : katSkip (some L) L = true := by
  simp [katSkip, hL]

theorem katSkip_other (L v : Nat) (hv : v ≠ L) : katSkip (some L) v = false := by
  simp [katSkip, hv]

/-- The latest volume stays expanded across every step of the CLI fold: its
own step skips the click, and toggles of other volumes do not remove it. -/
theorem katFold_keeps (pg : KatPage) (L : Nat)
    (hmk : pg.newChapterVol = some L) (hL : L ≠ 0) :
    ∀ (vols : List Nat) (acc : Finset Nat × List (Nat × (List Char × Nat))),
      L ∈ acc.1 → L ∈ (vols.foldl (katStepCli pg) acc).1 := by
  intro vols
  induction vols with
  | nil => intro acc h; exact h
  | cons v vs ih =>
    intro acc h
    simp only [List.foldl_cons]
    apply ih
    unfold katStepCli
    by_cases hs : katSkip pg.newChapterVol v = true
    · rw [if_pos hs]; exact h
    · rw [if_neg hs]
      have hvL : v ≠ L := fun heq =>
        hs (by rw [hmk, heq]; exact katSkip_self L hL)
      show L ∈ katToggle v acc.1
      unfold katToggle
      by_cases hv : v ∈ acc.1
      · rw [if_pos hv]; exact Finset.mem_erase.mpr ⟨Ne.symm hvL, h⟩
      · rw [if_neg hv]; exact Finset.mem_insert_of_mem h

/-- The CLI fold only ever appends to the collected chapter list. -/
theorem katFold_extends (pg : KatPage) :
    ∀ (vols : List Nat) (acc : Finset Nat × List (Nat × (List Char × Nat))),
      ∃ tail, (vols.foldl (katStepCli pg) acc).2 = acc.2 ++ tail := by
  intro vols
  induction vols with
  | nil => intro acc; exact ⟨[], by simp⟩
  | cons v vs ih =>
    intro acc
    simp only [List.foldl_cons]
    obtain ⟨tail, htail⟩ := ih (katStepCli pg acc v)
    rw [htail]
    unfold katStepCli
    by_cases hs : katSkip pg.newChapterVol v = true
    · rw [if_pos hs]
      exact ⟨katVisible pg acc.1 v ++ tail, by simp [List.append_assoc]⟩
    · rw [if_neg hs]
      exact ⟨katVisible pg (katToggle v acc.1) v ++ tail,
        by simp [List.append_assoc]⟩

/-- Claim C3, counterexample: on the spec's own fixture (volumes 1 and 2,
"New Chapter" marker naming volume 2, volume 2 pre-expanded) the app-version
discovery (`KatReadingCafeScraper._discover_chapters`) DOES click the latest
volume 2 — and, the click having collapsed it, collects not a single chapter
tagged with volume 2. -/
theorem claim_C3_counterexample :
    KatAction.click 2 ∈ (katDiscoverApp katFixturePage).1 ∧
    ((katDiscoverApp katFixturePage).2.filter (fun e => e.2.2 == 2)) = [] := by
  decide

/-- Claim C3, amended: the CLI discovery (`scrape_katreadingcafe`) behaves as
the claim states — the marker-identified latest volume is never clicked,
every other enumerated volume is scrolled and clicked (before its scan), and
the latest volume's chapters are still collected — whereas the app-version
`_discover_chapters` clicks every volume, the latest included (see the
counterexample).  `L ≠ 0` reflects the Python truthiness guard on the parsed
marker volume. -/
theorem claim_C3 (pg : KatPage) (L : Nat)
    (hmk : pg.newChapterVol = some L) (hL0 : L ≠ 0)
    (hexp : L ∈ pg.initiallyExpanded) :
    (KatAction.click L ∉ (katDiscoverCli pg).1) ∧
    (∀ v ∈ sortedDedup pg.volumeLabels, v ≠ L →
        KatAction.scroll v ∈ (katDiscoverCli pg).1 ∧
        KatAction.click v ∈ (katDiscoverCli pg).1) ∧
    (L ∈ pg.volumeLabels → ∀ p ∈ pg.chapters L,
        (p.1, (p.2, L)) ∈ (katDiscoverCli pg).2) := by
  refine ⟨?_, ?_, ?_⟩
  · intro hmem
    simp only [katDiscoverCli] at hmem
    rw [List.mem_flatMap] at hmem
    obtain ⟨v, hv, hin⟩ := hmem
    unfold katBlockCli at hin
    by_cases hs : katSkip pg.newChapterVol v = true
    · rw [if_pos hs] at hin
      simp at hin
    · rw [if_neg hs] at hin
      simp at hin
      exact hs (by rw [hmk, ← hin]; exact katSkip_self L hL0)
  · intro v hv hvL
    have hblock : katBlockCli pg.newChapterVol v
        = [KatAction.scroll v, KatAction.click v, KatAction.scan v] := by
      unfold katBlockCli
      rw [hmk, if_neg]
      rw [katSkip_other L v hvL]
      simp
    constructor
    · simp only [katDiscoverCli]
      rw [List.mem_flatMap]
      exact ⟨v, hv, by rw [hblock]; simp⟩
    · simp only [katDiscoverCli]
      rw [List.mem_flatMap]
      exact ⟨v, hv, by rw [hblock]; simp⟩
  · intro hLvols p hp
    have hLin : L ∈ sortedDedup pg.volumeLabels :=
      (mem_sortedDedup L pg.volumeLabels).mpr hLvols
    obtain ⟨pre, post, hsplit⟩ := List.append_of_mem hLin
    simp only [katDiscoverCli]
    rw [hsplit, List.foldl_append, List.foldl_cons]
    have hLexp : L ∈ (pre.foldl (katStepCli pg)
        (pg.initiallyExpanded, ([] : List (Nat × (List Char × Nat))))).1 :=
      katFold_keeps pg L hmk hL0 pre _ hexp
    have hstep : katStepCli pg
        (pre.foldl (katStepCli pg)
          (pg.initiallyExpanded, ([] : List (Nat × (List Char × Nat))))) L
        = ((pre.foldl (katStepCli pg) (pg.initiallyExpanded, [])).1,
           (pre.foldl (katStepCli pg) (pg.initiallyExpanded, [])).2 ++
             katVisible pg
               (pre.foldl (katStepCli pg) (pg.initiallyExpanded, [])).1 L) := by
      unfold katStepCli
      rw [hmk, if_pos (katSkip_self L hL0)]
    rw [hstep]
    obtain ⟨tail, htail⟩ := katFold_extends pg post _
    rw [htail]
    have hvis : (p.1, (p.2, L)) ∈ katVisible pg
        (pre.foldl (katStepCli pg) (pg.initiallyExpanded, [])).1 L := by
      unfold katVisible
      rw [if_pos hLexp]
      exact List.mem_map.mpr ⟨p, hp, rfl⟩
    exact List.mem_append_left _ (List.mem_append_right _ hvis)

/-- Claim C3, witness: the amended theorem applied to the spec's fixture:
volume 2 (latest) is never clicked, volume 1 is, and volume 2's chapter 1 is
collected with its volume tag. -/
theorem claim_C3_witness :
    KatAction.click 2 ∉ (katDiscoverCli katFixturePage).1 ∧
    KatAction.click 1 ∈ (katDiscoverCli katFixturePage).1 ∧
    (1, ("w1".data, 2)) ∈ (katDiscoverCli katFixturePage).2 :=
  ⟨(claim_C3 katFixturePage 2 rfl (by decide) (by decide)).1,
   ((claim_C3 katFixturePage 2 rfl (by decide) (by decide)).2.1 1 (by decide)
     (by decide)).2,
   (claim_C3 katFixturePage 2 rfl (by decide) (by decide)).2.2 (by decide)
     (1, "w1".data) (by decide)⟩

/-! ## Claim theorems: infinite-scroll discovery loop (C8) -/

theorem foldl_union_eq :
    ∀ (l : List (Finset Nat)) (a : Finset Nat),
      l.foldl (· ∪ ·) a = a ∪ unionAll l := by
  intro l
  induction l with
  | nil => intro a; simp [unionAll]
  | cons d ds ih =>
    intro a
    have h1 : unionAll (d :: ds) = d ∪ unionAll ds := by
      simp only [unionAll, List.foldl_cons]
      rw [ih (∅ ∪ d)]
      simp [unionAll]
    simp only [List.foldl_cons]
    rw [ih (a ∪ d), h1, Finset.union_assoc]

theorem unionAll_cons (c : Finset Nat) (l : List (Finset Nat)) :
    unionAll (c :: l) = c ∪ unionAll l := by
  simp only [unionAll, List.foldl_cons]
  rw [foldl_union_eq l (∅ ∪ c)]
  simp [unionAll]

/-- Whatever the page serves, the loop's result set is exactly the
accumulated union of the already-found set with every scanned link set. -/
theorem scrollLoop_found (pg : ScrollPage) :
    ∀ (fuel idx stable : Nat) (found : Finset Nat),
      (scrollLoop pg fuel idx stable found).found
        = found ∪ unionAll (scrollLoop pg fuel idx stable found).scanned := by
  intro fuel
  induction fuel with
  | zero => intro idx stable found; simp [scrollLoop, unionAll]
  | succ f ih =>
    intro idx stable found
    simp only [scrollLoop]
    by_cases h1 : (if pg.linksAt idx ⊆ found then stable + 1 else 0) ≥ 4
    · rw [if_pos h1]
      rw [unionAll_cons]
      simp [unionAll]
    · rw [if_neg h1]
      by_cases h2 : pg.atBottom idx = true
      · rw [if_pos h2]
        rw [unionAll_cons, unionAll_cons]
        simp [unionAll, Finset.union_assoc]
      · rw [if_neg h2]
        rw [unionAll_cons]
        rw [ih (idx + 1) _ (found ∪ pg.linksAt idx)]
        rw [Finset.union_assoc]

/-- The loop runs at most `fuel` iterations past its starting index. -/
theorem scrollLoop_iters (pg : ScrollPage) :
    ∀ (fuel idx stable : Nat) (found : Finset Nat),
      (scrollLoop pg fuel idx stable found).iters ≤ idx + fuel := by
  intro fuel
  induction fuel with
  | zero => intro idx stable found; simp [scrollLoop]
  | succ f ih =>
    intro idx stable found
    simp only [scrollLoop]
    by_cases h1 : (if pg.linksAt idx ⊆ found then stable + 1 else 0) ≥ 4
    · rw [if_pos h1]; dsimp only; omega
    · rw [if_neg h1]
      by_cases h2 : pg.atBottom idx = true
      · rw [if_pos h2]; dsimp only; omega
      · rw [if_neg h2]
        dsimp only
        have := ih (idx + 1) (if pg.linksAt idx ⊆ found then stable + 1 else 0)
          (found ∪ pg.linksAt idx)
        omega

/-- Claim C8: for EVERY simulated infinite-scroll page the discovery loop
terminates within the 25-iteration cap (by stability, bottom-of-page, or the
cap itself) and on termination its found set is exactly the union of the
initially loaded chapters with every per-iteration scan; on the spec's
three-step fixture it stops by stability after 6 iterations — well before
the cap — returning `{5,6,7,8,9}`. -/
theorem claim_C8 :
    (∀ pg : ScrollPage,
        (discover_scroll pg).found
          = pg.initialLinks ∪ unionAll (discover_scroll pg).scanned ∧
        (discover_scroll pg).iters ≤ 25) ∧
    (discover_scroll scrollFixture).found = {5, 6, 7, 8, 9} ∧
    (discover_scroll scrollFixture).reason = ScrollStop.stability ∧
    (discover_scroll scrollFixture).iters = 6 := by
  refine ⟨?_, by decide, by decide, by decide⟩
  intro pg
  constructor
  · simp only [discover_scroll]
    rw [unionAll_cons]
    rw [scrollLoop_found pg 25 0 0 pg.initialLinks]
    rw [← Finset.union_assoc, Finset.union_self]
  · simp only [discover_scroll]
    have := scrollLoop_iters pg 25 0 0 pg.initialLinks
    simpa using this

end NovelScraper
